import Mathlib

/-!
Verification development for the exacl portable ACL core.

The repository's `src/` tree holds the two C wrapper headers that select the
platform-specific ACL extension header at build time; those are embedded
directly (`wrapperExtHeaders`, `bindgenExtHeaders`).  The core translation
layer (canonical ACL model, validator, native codec, identity resolver and
ACL store) is specified in `spec.md` but its implementation files are not in
`src/`, so the definitions below for those components are modelled from the
spec, section by section, as noted on each definition.
-/

namespace Exacl

/-- Modelled from the spec, section 3: canonical identity a permission entry
applies to. -/
inductive Subject where
  | User (uid : Nat)
  | Group (gid : Nat)
  | Owner
  | OwningGroup
  | Other
  | Mask
deriving DecidableEq

/-- Modelled from the spec, section 3: a set of independent boolean rights. -/
structure Permissions where
  read : Bool
  write : Bool
  execute : Bool
deriving DecidableEq

/-- Modelled from the spec, section 3: platform-specific entry modifiers.
`defaultScope` marks a directory-default (inherited) entry; `unknownBits`
carries unknown / vendor-specific flags opaquely. -/
structure EntryFlags where
  defaultScope : Bool
  unknownBits : Nat
deriving DecidableEq

/-- Modelled from the spec, section 3: one canonical ACL entry. -/
structure AclEntry where
  subject : Subject
  permissions : Permissions
  flags : EntryFlags
deriving DecidableEq

/-- Modelled from the spec, section 3: an `Acl` is an ordered sequence of
entries; ordering is preserved for round-tripping. -/
abbrev Acl := List AclEntry

/-- Modelled from the spec, section 7: validation error taxonomy. -/
inductive ValidationError where
  | MissingRequiredEntry
  | DuplicateSymbolicEntry
  | MissingMask
  | ScopeMismatch
deriving DecidableEq

/-- Modelled from the spec, section 7: identity resolution error taxonomy. -/
inductive IdentityError where
  | NotFound
  | AmbiguousDomain
  | Unsupported
deriving DecidableEq

/-- Modelled from the spec, section 7: codec error taxonomy. -/
inductive CodecError where
  | InvalidScope
  | MalformedNative
  | UnsupportedEntry
deriving DecidableEq

/-- Modelled from the spec, section 9: typed intermediate result of the
two-phase set protocol (access phase, then default phase). -/
inductive PhaseOutcome where
  | AccessApplied
  | DefaultApplied
  | DefaultFailed
deriving DecidableEq

/-- Modelled from the spec, section 7: store error taxonomy.  `PartialApply`
carries which phase of the two-phase set protocol had already succeeded. -/
inductive StoreError where
  | NotFound
  | PermissionDenied
  | PartialApply (completed : PhaseOutcome)
  | Interrupted
  | Identity (e : IdentityError)
  | Codec (e : CodecError)
  | Validation (e : ValidationError)
deriving DecidableEq

/-- Number of entries of `a` whose subject is exactly `s`. -/
def countSubject (a : Acl) (s : Subject) : Nat :=
  a.countP (fun e => decide (e.subject = s))

/-- True for the named (numeric-identity) subject variants. -/
def isNamed : Subject → Bool
  | Subject.User _ => true
  | Subject.Group _ => true
  | _ => false

/-- True when the subject list contains the same subject twice. -/
def dupSubjects : List Subject → Bool
  | [] => false
  | s :: rest => rest.any (fun t => decide (t = s)) || dupSubjects rest

/-- True when some entry of `a` carries the default-scope flag. -/
def hasDefaultEntry (a : Acl) : Bool :=
  a.any (fun e => e.flags.defaultScope)

/-- Modelled from the spec, sections 3 and 4.3: the canonical-model validator.
It checks, in order: the three required symbolic entries are present; no
subject is repeated (covers the at-most-once rule for symbolic entries and
the distinct-identifier rule for named entries); a mask entry is present
whenever named user/group entries are; default-scope entries appear only
when the `Acl` applies to a directory.  Detection only, never repair. -/
def validate (a : Acl) (is_directory : Bool) : Except ValidationError Unit :=
  if countSubject a Subject.Owner = 0 ∨ countSubject a Subject.OwningGroup = 0 ∨
      countSubject a Subject.Other = 0 then
    Except.error ValidationError.MissingRequiredEntry
  else if dupSubjects (a.map (fun e => e.subject)) then
    Except.error ValidationError.DuplicateSymbolicEntry
  else if (a.any fun e => isNamed e.subject) && (countSubject a Subject.Mask == 0) then
    Except.error ValidationError.MissingMask
  else if hasDefaultEntry a && !is_directory then
    Except.error ValidationError.ScopeMismatch
  else
    Except.ok ()

/-- Modelled from the spec, section 4.2: native tag of a raw ACL entry on the
numeric-identity platform family. -/
inductive RawTag where
  | rUser (uid : Nat)
  | rGroup (gid : Nat)
  | rOwner
  | rOwningGroup
  | rOther
  | rMask
deriving DecidableEq

/-- Modelled from the spec, section 4.2: one entry of the raw native ACL
representation: a tag, permission bits (r=4, w=2, x=1), the access/default
scope marker, and opaque vendor-specific flag bits. -/
structure RawEntry where
  tag : RawTag
  perms : Nat
  isDefault : Bool
  rawFlags : Nat
deriving DecidableEq

/-- Canonical subject to native tag (numeric-identity platform). -/
def subjToTag : Subject → RawTag
  | Subject.User u => RawTag.rUser u
  | Subject.Group g => RawTag.rGroup g
  | Subject.Owner => RawTag.rOwner
  | Subject.OwningGroup => RawTag.rOwningGroup
  | Subject.Other => RawTag.rOther
  | Subject.Mask => RawTag.rMask

/-- Native tag to canonical subject (numeric-identity platform). -/
def tagToSubj : RawTag → Subject
  | RawTag.rUser u => Subject.User u
  | RawTag.rGroup g => Subject.Group g
  | RawTag.rOwner => Subject.Owner
  | RawTag.rOwningGroup => Subject.OwningGroup
  | RawTag.rOther => Subject.Other
  | RawTag.rMask => Subject.Mask

/-- Permissions to native permission bits. -/
def permBits (p : Permissions) : Nat :=
  (if p.read then 4 else 0) + (if p.write then 2 else 0) + (if p.execute then 1 else 0)

/-- Native permission bits to Permissions. -/
def bitsToPerms (n : Nat) : Permissions :=
  { read := n.testBit 2, write := n.testBit 1, execute := n.testBit 0 }

/-- One canonical entry to its raw native form; unknown flag bits are
re-emitted unchanged. -/
def entryToRaw (e : AclEntry) : RawEntry :=
  { tag := subjToTag e.subject
    perms := permBits e.permissions
    isDefault := e.flags.defaultScope
    rawFlags := e.flags.unknownBits }

/-- One raw native entry to its canonical form; unknown flag bits are
preserved opaquely. -/
def rawToEntry (re : RawEntry) : AclEntry :=
  { subject := tagToSubj re.tag
    permissions := bitsToPerms re.perms
    flags := { defaultScope := re.isDefault, unknownBits := re.rawFlags } }

/-- Mapping of a validation failure detected during encoding onto the codec
error taxonomy of the spec, section 7. -/
def validationToCodec : ValidationError → CodecError
  | ValidationError.ScopeMismatch => CodecError.InvalidScope
  | _ => CodecError.UnsupportedEntry

/-- Modelled from the spec, section 4.2: `encode` validates the POSIX.1e
layout invariants first and fails on a structurally invalid `Acl` rather
than patching it; otherwise it emits the raw entries in order. -/
def encode (a : Acl) (is_directory : Bool) : Except CodecError (List RawEntry) :=
  match validate a is_directory with
  | Except.error ve => Except.error (validationToCodec ve)
  | Except.ok _ => Except.ok (a.map entryToRaw)

/-- Modelled from the spec, section 4.2: `decode` rejects default-scope raw
entries for a non-directory target (`InvalidScope`), rejects out-of-range
native permission bits (`MalformedNative`), and otherwise translates the raw
entries in the order the OS returned them. -/
def decode (raw : List RawEntry) (is_directory : Bool) : Except CodecError Acl :=
  if (raw.any fun re => re.isDefault) && !is_directory then
    Except.error CodecError.InvalidScope
  else if raw.any (fun re => decide (8 ≤ re.perms)) then
    Except.error CodecError.MalformedNative
  else
    Except.ok (raw.map rawToEntry)

/-- Access-scope part of the encoded form of `a`. -/
def encodeAccess (a : Acl) : List RawEntry :=
  (a.map entryToRaw).filter (fun re => !re.isDefault)

/-- Default-scope part of the encoded form of `a`. -/
def encodeDefault (a : Acl) : List RawEntry :=
  (a.map entryToRaw).filter (fun re => re.isDefault)

/-- Modelled from the spec, section 4.4: the pre-commit resolution pass of
`set_acl` — every subject is resolved through the identity resolver `r`; the
first failure aborts the pass. -/
def resolveAll (r : Subject → Except IdentityError Nat) : List AclEntry → Except IdentityError Unit
  | [] => Except.ok ()
  | e :: rest =>
    match r e.subject with
    | Except.error err => Except.error err
    | Except.ok _ => resolveAll r rest

/-- Outcome of one native system-call attempt, as injected by the test
double: success, interruption by a signal, or an errno-style failure. -/
inductive OsOutcome where
  | ok
  | interrupted
  | noent
  | eperm
deriving DecidableEq

/-- Kind of native call issued by the store, recorded by the test double. -/
inductive CallKind where
  | readAcl
  | setAccess
  | setDefault
  | removeExtended
deriving DecidableEq

/-- Filesystem-side ACL data: per-path access-scope and default-scope raw
ACLs (paths modelled as numbers). -/
structure FsData where
  access : List (Nat × List RawEntry)
  dflt : List (Nat × List RawEntry)
deriving DecidableEq

/-- Modelled from the spec, section 8: state of the native-call test double —
a script of injected outcomes (consumed one per attempt, an exhausted script
meaning success), the filesystem ACL data, and the trace of attempted native
calls. -/
structure Sys where
  faults : List OsOutcome
  fs : FsData
  trace : List CallKind
deriving DecidableEq

/-- Raw ACL stored for path `p`, or the empty ACL when none is recorded. -/
def lookupD : List (Nat × List RawEntry) → Nat → List RawEntry
  | [], _ => []
  | kv :: rest, p => if kv.1 = p then kv.2 else lookupD rest p

/-- Store raw ACL `v` for path `p`, replacing any existing binding. -/
def setKey (p : Nat) (v : List RawEntry) : List (Nat × List RawEntry) → List (Nat × List RawEntry)
  | [] => [(p, v)]
  | kv :: rest => if kv.1 = p then (p, v) :: rest else kv :: setKey p v rest

/-- Drop any binding for path `p`. -/
def eraseKey (p : Nat) (l : List (Nat × List RawEntry)) : List (Nat × List RawEntry) :=
  l.filter (fun kv => !(kv.1 == p))

/-- One native call attempt of kind `k`: the next scripted outcome is
consumed (an exhausted script means success), the attempt is recorded in
the trace, and the filesystem effect `eff` is applied only when the call
succeeds. -/
def nativeCall (k : CallKind) (eff : FsData → FsData) (s : Sys) : OsOutcome × Sys :=
  match s.faults with
  | [] => (OsOutcome.ok, { faults := [], fs := eff s.fs, trace := s.trace ++ [k] })
  | f :: rest =>
    (f, { faults := rest
          fs := if f = OsOutcome.ok then eff s.fs else s.fs
          trace := s.trace ++ [k] })

/-- Modelled from the spec, section 7: wrapper for a mutating native call —
an interrupted call is retried automatically exactly once; every other
failure is translated to its store error and returned immediately. -/
def withRetry (k : CallKind) (eff : FsData → FsData) (s : Sys) : Except StoreError Unit × Sys :=
  let r1 := nativeCall k eff s
  match r1.1 with
  | OsOutcome.ok => (Except.ok (), r1.2)
  | OsOutcome.noent => (Except.error StoreError.NotFound, r1.2)
  | OsOutcome.eperm => (Except.error StoreError.PermissionDenied, r1.2)
  | OsOutcome.interrupted =>
    let r2 := nativeCall k eff r1.2
    match r2.1 with
    | OsOutcome.ok => (Except.ok (), r2.2)
    | OsOutcome.noent => (Except.error StoreError.NotFound, r2.2)
    | OsOutcome.eperm => (Except.error StoreError.PermissionDenied, r2.2)
    | OsOutcome.interrupted => (Except.error StoreError.Interrupted, r2.2)

/-- Number of mutating native calls recorded in the trace. -/
def mutCalls (s : Sys) : Nat :=
  (s.trace.filter (fun k => !(k == CallKind.readAcl))).length

/-- Modelled from the spec, section 4.4: `get_acl` reads the raw native ACL
with a single, never-retried native read ("no retries on read — a read
failure is reported, not masked") and decodes it into a fresh canonical
value. -/
def get_acl (p : Nat) (s : Sys) : Except StoreError Acl × Sys :=
  let r1 := nativeCall CallKind.readAcl id s
  match r1.1 with
  | OsOutcome.ok =>
    match decode (lookupD r1.2.fs.access p ++ lookupD r1.2.fs.dflt p) true with
    | Except.error ce => (Except.error (StoreError.Codec ce), r1.2)
    | Except.ok a => (Except.ok a, r1.2)
  | OsOutcome.interrupted => (Except.error StoreError.Interrupted, r1.2)
  | OsOutcome.noent => (Except.error StoreError.NotFound, r1.2)
  | OsOutcome.eperm => (Except.error StoreError.PermissionDenied, r1.2)

/-- Modelled from the spec, sections 4.4 and 9: `set_acl` validates, then
resolves every subject (aborting before any native call on the first
failure), then encodes, then runs the two-phase commit protocol: the
access-scope set call first, and — when default-scope entries are present —
the default-scope set call second.  When the access phase succeeded and the
default phase fails, the typed intermediate `PhaseOutcome.AccessApplied` is
reported inside `StoreError.PartialApply`; no rollback is attempted. -/
def set_acl (r : Subject → Except IdentityError Nat) (p : Nat) (a : Acl)
    (is_directory : Bool) (s : Sys) : Except StoreError Unit × Sys :=
  match validate a is_directory with
  | Except.error e => (Except.error (StoreError.Validation e), s)
  | Except.ok _ =>
  match resolveAll r a with
  | Except.error e => (Except.error (StoreError.Identity e), s)
  | Except.ok _ =>
  match encode a is_directory with
  | Except.error e => (Except.error (StoreError.Codec e), s)
  | Except.ok raw =>
    let r1 := withRetry CallKind.setAccess
      (fun fs => { fs with access := setKey p (raw.filter (fun re => !re.isDefault)) fs.access }) s
    match r1.1 with
    | Except.error e => (Except.error e, r1.2)
    | Except.ok _ =>
      if hasDefaultEntry a then
        let r2 := withRetry CallKind.setDefault
          (fun fs => { fs with dflt := setKey p (raw.filter (fun re => re.isDefault)) fs.dflt }) r1.2
        match r2.1 with
        | Except.error _ =>
          (Except.error (StoreError.PartialApply PhaseOutcome.AccessApplied), r2.2)
        | Except.ok _ => (Except.ok (), r2.2)
      else (Except.ok (), r1.2)

/-- True for a raw entry that belongs to the minimal mode-bit-derived ACL:
an access-scope owner, owning-group or other entry. -/
def minimalRaw (re : RawEntry) : Bool :=
  !re.isDefault &&
    (match re.tag with
     | RawTag.rOwner => true
     | RawTag.rOwningGroup => true
     | RawTag.rOther => true
     | _ => false)

/-- Minimal mode-bit-derived part of a raw access ACL. -/
def minimalOf (l : List RawEntry) : List RawEntry :=
  l.filter minimalRaw

/-- Modelled from the spec, section 4.4: `remove_acl` issues one native
call that strips the extended entries of the path's access ACL (leaving the
minimal mode-bit-derived entries) and drops its default ACL. -/
def remove_acl (p : Nat) (s : Sys) : Except StoreError Unit × Sys :=
  withRetry CallKind.removeExtended
    (fun fs =>
      { access := setKey p (minimalOf (lookupD fs.access p)) fs.access
        dflt := eraseKey p fs.dflt }) s

/-- Modelled from the spec, section 4.1: the well-known security principals
a GUID may denote on the GUID-based platform. -/
inductive WellKnown where
  | everyone
  | fileOwner
  | fileGroup
deriving DecidableEq

/-- Modelled from the spec, section 4.1: result of classifying a GUID's
domain (user, group, or well-known principal) via the native identity
service. -/
inductive GuidDomain where
  | userDom
  | groupDom
  | wellKnown (w : WellKnown)
deriving DecidableEq

/-- Modelled from the spec, section 4.1: a GUID together with the domain the
native identity service classifies it into. -/
structure Guid where
  domain : GuidDomain
  value : Nat
deriving DecidableEq

/-- Modelled from the spec, section 4.1: on the GUID-based platform,
`to_subject` classifies the GUID's domain first; a well-known principal is
mapped to its symbolic subject without consulting the numeric translation
service `numTrans`, and only user/group GUIDs are translated numerically. -/
def to_subject_guid (numTrans : GuidDomain → Nat → Except IdentityError Nat)
    (g : Guid) : Except IdentityError Subject :=
  match g.domain with
  | GuidDomain.wellKnown WellKnown.everyone => Except.ok Subject.Other
  | GuidDomain.wellKnown WellKnown.fileOwner => Except.ok Subject.Owner
  | GuidDomain.wellKnown WellKnown.fileGroup => Except.ok Subject.OwningGroup
  | GuidDomain.userDom =>
    match numTrans GuidDomain.userDom g.value with
    | Except.ok uid => Except.ok (Subject.User uid)
    | Except.error e => Except.error e
  | GuidDomain.groupDom =>
    match numTrans GuidDomain.groupDom g.value with
    | Except.ok gid => Except.ok (Subject.Group gid)
    | Except.error e => Except.error e

/-- Compilation target, abstracted to the two platform test macros the
wrapper headers inspect (a flag is true when the macro is defined, with its
conventional nonzero value). -/
structure Target where
  apple : Bool
  linux : Bool
deriving DecidableEq

/-- The two platform-specific ACL extension headers. -/
inductive ExtHeader where
  | membership
  | libacl
deriving DecidableEq

/-- Embedding of src/wrapper.h lines 5-11: `#if defined(__APPLE__)` includes
membership.h, and the `#else` branch includes acl/libacl.h on every other
target. -/
def wrapperExtHeaders (t : Target) : List ExtHeader :=
  if t.apple then [ExtHeader.membership] else [ExtHeader.libacl]

/-- Embedding of src/bindgen/wrapper.h lines 5-11: `#if __APPLE__` includes
membership.h, `#elif __linux__` includes acl/libacl.h, and there is no else
branch, so any other target includes neither extension header. -/
def bindgenExtHeaders (t : Target) : List ExtHeader :=
  if t.apple then [ExtHeader.membership]
  else if t.linux then [ExtHeader.libacl]
  else []

/-- Entry flags with no modifiers set. -/
def noFlags : EntryFlags := { defaultScope := false, unknownBits := 0 }

/-- A structurally valid file ACL sample; the owner entry carries opaque
vendor flag bits. -/
def sampleAcl : Acl :=
  [ { subject := Subject.Owner
      permissions := { read := true, write := true, execute := false }
      flags := { defaultScope := false, unknownBits := 5 } },
    { subject := Subject.OwningGroup
      permissions := { read := true, write := false, execute := false }
      flags := noFlags },
    { subject := Subject.Other
      permissions := { read := true, write := false, execute := false }
      flags := noFlags } ]

/-- A structurally valid directory ACL sample containing one default-scope
entry. -/
def sampleDirAcl : Acl :=
  [ { subject := Subject.Owner
      permissions := { read := true, write := true, execute := true }
      flags := noFlags },
    { subject := Subject.OwningGroup
      permissions := { read := true, write := false, execute := true }
      flags := noFlags },
    { subject := Subject.Other
      permissions := { read := true, write := false, execute := false }
      flags := { defaultScope := true, unknownBits := 0 } } ]

/-- An ACL holding two mask entries and no required symbolic entries. -/
def aclTwoMasks : Acl :=
  [ { subject := Subject.Mask
      permissions := { read := true, write := false, execute := false }
      flags := noFlags },
    { subject := Subject.Mask
      permissions := { read := true, write := false, execute := false }
      flags := noFlags } ]

/-- A system state with a given fault script and empty filesystem data. -/
def sysWith (f : List OsOutcome) : Sys :=
  { faults := f, fs := { access := [], dflt := [] }, trace := [] }

/-- A fault-free system state whose path 0 holds extended access entries and
a default ACL. -/
def sampleRawSys : Sys :=
  { faults := []
    fs :=
      { access :=
          [ (0, [ { tag := RawTag.rOwner, perms := 6, isDefault := false, rawFlags := 0 },
                  { tag := RawTag.rUser 9, perms := 7, isDefault := false, rawFlags := 0 },
                  { tag := RawTag.rMask, perms := 7, isDefault := false, rawFlags := 0 },
                  { tag := RawTag.rOwningGroup, perms := 4, isDefault := false, rawFlags := 0 },
                  { tag := RawTag.rOther, perms := 4, isDefault := false, rawFlags := 0 } ]) ]
        dflt :=
          [ (0, [ { tag := RawTag.rOwner, perms := 7, isDefault := true, rawFlags := 0 } ]) ] }
    trace := [] }

/-- An identity resolver for which every subject fails to resolve. -/
def failingResolver : Subject → Except IdentityError Nat :=
  fun _ => Except.error IdentityError.NotFound

/-- An identity resolver for which every subject resolves. -/
def okResolver : Subject → Except IdentityError Nat :=
  fun _ => Except.ok 0

lemma tagToSubj_subjToTag (s : Subject) : tagToSubj (subjToTag s) = s := by
  cases s <;> rfl

lemma bitsToPerms_permBits (p : Permissions) : bitsToPerms (permBits p) = p := by
  rcases p with ⟨r, w, x⟩
  cases r <;> cases w <;> cases x <;> decide

lemma permBits_lt (p : Permissions) : permBits p < 8 := by
  rcases p with ⟨r, w, x⟩
  cases r <;> cases w <;> cases x <;> decide

lemma rawToEntry_entryToRaw (e : AclEntry) : rawToEntry (entryToRaw e) = e := by
  rcases e with ⟨s, p, f⟩
  rcases f with ⟨ds, ub⟩
  simp [rawToEntry, entryToRaw, tagToSubj_subjToTag, bitsToPerms_permBits]

lemma any_map_comp {α β : Type} (l : List α) (f : α → β) (p : β → Bool) :
    (l.map f).any p = l.any (fun x => p (f x)) := by
  induction l with
  | nil => rfl
  | cons e t ih => simp [ih]

lemma map_raw_roundtrip (l : List AclEntry) :
    l.map (fun e => rawToEntry (entryToRaw e)) = l := by
  induction l with
  | nil => rfl
  | cons e t ih => simp [rawToEntry_entryToRaw, ih]

lemma validate_ok_no_scope (a : Acl) (d : Bool) (hv : validate a d = Except.ok ()) :
    (hasDefaultEntry a && !d) = false := by
  simp only [validate] at hv
  split_ifs at hv with h1 h2 h3 h4
  simpa using h4

lemma dup_of_count (l : List Subject) (x : Subject)
    (h : 2 ≤ l.countP (fun t => decide (t = x))) : dupSubjects l = true := by
  induction l with
  | nil => simp [List.countP_nil] at h
  | cons s rest ih =>
    rw [List.countP_cons] at h
    by_cases hs : s = x
    · subst hs
      have h1 : 0 < rest.countP (fun t => decide (t = s)) := by
        split at h
        · omega
        · rename_i hc
          exact absurd (by simp) hc
      obtain ⟨t, ht, hp⟩ := List.countP_pos_iff.mp h1
      simp only [dupSubjects, Bool.or_eq_true]
      exact Or.inl (List.any_eq_true.mpr ⟨t, ht, hp⟩)
    · have h2 : 2 ≤ rest.countP (fun t => decide (t = x)) := by
        split at h
        · rename_i hc
          exact absurd hc (by simp [hs])
        · omega
      simp only [dupSubjects, Bool.or_eq_true]
      exact Or.inr (ih h2)

lemma two_count_dup_acl (a : Acl) (x : Subject) (h : 2 ≤ countSubject a x) :
    dupSubjects (a.map (fun e => e.subject)) = true := by
  apply dup_of_count _ x
  rw [List.countP_map]
  exact h

/-- C1.  Round-trip: for every `Acl` that validates with a consistent
`is_directory` flag, decoding the encoded raw form yields the same `Acl`
under structural, order-preserving equality, and in particular the opaque
unknown/vendor flag bits are re-emitted unchanged by `encode`. -/
theorem encode_decode_roundtrip (a : Acl) (d : Bool) (raw : List RawEntry)
    (hv : validate a d = Except.ok ()) (he : encode a d = Except.ok raw) :
    decode raw d = Except.ok a ∧
      raw.map (fun re => re.rawFlags) = a.map (fun e => e.flags.unknownBits) := by
  have hraw : raw = a.map entryToRaw := by
    simp [encode, hv] at he
    exact he.symm
  subst hraw
  constructor
  · have h0 : ((a.map entryToRaw).any fun re => re.isDefault) = hasDefaultEntry a := by
      rw [any_map_comp]
      rfl
    have h1 : (((a.map entryToRaw).any fun re => re.isDefault) && !d) = false := by
      rw [h0]
      exact validate_ok_no_scope a d hv
    have h2 : ((a.map entryToRaw).any fun re => decide (8 ≤ re.perms)) = false := by
      rw [any_map_comp, Bool.eq_false_iff]
      intro hc
      obtain ⟨e, he, hp⟩ := List.any_eq_true.mp hc
      simp at hp
      have hlt := permBits_lt e.permissions
      simp [entryToRaw] at hp
      omega
    have h3 : (a.map entryToRaw).map rawToEntry = a := by
      rw [List.map_map]
      exact map_raw_roundtrip a
    simp [decode, h1, h2, h3]
  · rw [List.map_map]
    rfl

/-- Witness for C1 at a concrete structurally valid file ACL carrying
nonzero vendor flag bits. -/
theorem encode_decode_roundtrip_witness :
    decode (sampleAcl.map entryToRaw) false = Except.ok sampleAcl ∧
      (sampleAcl.map entryToRaw).map (fun re => re.rawFlags) =
        sampleAcl.map (fun e => e.flags.unknownBits) :=
  encode_decode_roundtrip sampleAcl false (sampleAcl.map entryToRaw) rfl rfl

/-- C3 counterexample.  An `Acl` with two `Mask` entries and no `Owner`
entry triggers the missing-required-entry check, not the duplicate check,
so the claim's unconditional duplicate clause fails on it. -/
theorem validate_precedence_counterexample :
    2 ≤ countSubject aclTwoMasks Subject.Mask ∧
      validate aclTwoMasks false ≠ Except.error ValidationError.DuplicateSymbolicEntry := by
  constructor
  · decide
  · intro h
    have h0 : (Except.error ValidationError.MissingRequiredEntry : Except ValidationError Unit) =
        Except.error ValidationError.DuplicateSymbolicEntry := h
    injection h0 with h1
    exact ValidationError.noConfusion h1

/-- C3 as amended.  Missing `Owner` always reports `MissingRequiredEntry`;
two `Mask` entries report `DuplicateSymbolicEntry` provided the required
entries are present; a default-scope entry in an otherwise valid `Acl`
reports `ScopeMismatch` under `is_directory = false`. -/
theorem validate_error_reporting :
    (∀ (a : Acl) (d : Bool), countSubject a Subject.Owner = 0 →
        validate a d = Except.error ValidationError.MissingRequiredEntry)
    ∧ (∀ (a : Acl) (d : Bool), countSubject a Subject.Owner ≠ 0 →
        countSubject a Subject.OwningGroup ≠ 0 → countSubject a Subject.Other ≠ 0 →
        2 ≤ countSubject a Subject.Mask →
        validate a d = Except.error ValidationError.DuplicateSymbolicEntry)
    ∧ (∀ (a : Acl), validate a true = Except.ok () → hasDefaultEntry a = true →
        validate a false = Except.error ValidationError.ScopeMismatch) := by
  refine ⟨?_, ?_, ?_⟩
  · intro a d h
    simp only [validate]
    rw [if_pos (Or.inl h)]
  · intro a d h1 h2 h3 hm
    have hdup := two_count_dup_acl a Subject.Mask hm
    have hc1 : ¬(countSubject a Subject.Owner = 0 ∨ countSubject a Subject.OwningGroup = 0 ∨
        countSubject a Subject.Other = 0) := by
      rintro (h | h | h)
      exacts [h1 h, h2 h, h3 h]
    simp only [validate]
    rw [if_neg hc1, if_pos hdup]
  · intro a hok hd
    simp only [validate] at hok
    split_ifs at hok with h1 h2 h3 h4
    simp only [validate]
    rw [if_neg h1, if_neg h2, if_neg h3,
      if_pos (show (hasDefaultEntry a && !false) = true by simp [hd])]

/-- Witness for the amended C3, exercising the missing-owner clause at a
concrete `Acl`. -/
theorem validate_error_reporting_witness :
    validate aclTwoMasks false = Except.error ValidationError.MissingRequiredEntry :=
  validate_error_reporting.1 aclTwoMasks false rfl

/-- C4.  Encoding an `Acl` that violates a section-3 structural invariant
(missing required symbolic entry, a repeated entry subject, or a missing
mask alongside named entries) fails with a `CodecError`; no repaired raw
ACL is ever returned. -/
theorem encode_rejects_invalid (a : Acl) (d : Bool)
    (h : countSubject a Subject.Owner = 0 ∨ countSubject a Subject.OwningGroup = 0 ∨
        countSubject a Subject.Other = 0 ∨ (∃ x, 2 ≤ countSubject a x) ∨
        ((a.any fun e => isNamed e.subject) = true ∧ countSubject a Subject.Mask = 0)) :
    ∃ ce, encode a d = Except.error ce := by
  have hval : ∃ ve, validate a d = Except.error ve := by
    by_cases h1 : (countSubject a Subject.Owner = 0 ∨ countSubject a Subject.OwningGroup = 0 ∨
        countSubject a Subject.Other = 0)
    · exact ⟨ValidationError.MissingRequiredEntry, by simp only [validate]; rw [if_pos h1]⟩
    · by_cases h2 : dupSubjects (a.map fun e => e.subject) = true
      · exact ⟨ValidationError.DuplicateSymbolicEntry, by
          simp only [validate]; rw [if_neg h1, if_pos h2]⟩
      · rcases h with h | h | h | ⟨x, hx⟩ | ⟨hn, hm⟩
        · exact absurd (Or.inl h) h1
        · exact absurd (Or.inr (Or.inl h)) h1
        · exact absurd (Or.inr (Or.inr h)) h1
        · exact absurd (two_count_dup_acl a x hx) h2
        · refine ⟨ValidationError.MissingMask, ?_⟩
          simp only [validate]
          rw [if_neg h1, if_neg h2, if_pos (show ((a.any fun e => isNamed e.subject) &&
            (countSubject a Subject.Mask == 0)) = true by simp [hn, hm])]
  obtain ⟨ve, hve⟩ := hval
  exact ⟨validationToCodec ve, by simp [encode, hve]⟩

/-- Witness for C4 at the empty `Acl`, which lacks every required entry. -/
theorem encode_rejects_invalid_witness : ∃ ce, encode ([] : Acl) false = Except.error ce :=
  encode_rejects_invalid [] false (Or.inl rfl)

lemma resolveAll_err (r : Subject → Except IdentityError Nat) (l : List AclEntry)
    (h : ∃ en ∈ l, ∃ ee, r en.subject = Except.error ee) :
    ∃ err, resolveAll r l = Except.error err := by
  induction l with
  | nil =>
    obtain ⟨en, hm, _⟩ := h
    exact absurd hm (List.not_mem_nil en)
  | cons e rest ih =>
    cases hre : r e.subject with
    | error err => exact ⟨err, by simp [resolveAll, hre]⟩
    | ok v =>
      obtain ⟨en, hm, ee, he⟩ := h
      rcases List.mem_cons.mp hm with h0 | hm2
      · subst h0
        rw [hre] at he
        exact Except.noConfusion he
      · obtain ⟨err, herr⟩ := ih ⟨en, hm2, ee, he⟩
        exact ⟨err, by simp [resolveAll, hre, herr]⟩

/-- C2.  When any subject of the input `Acl` fails identity resolution,
`set_acl` aborts: the system state (including the native call trace) is
unchanged, no native mutating call is issued, and an error is returned. -/
theorem set_acl_aborts_on_resolution_failure
    (r : Subject → Except IdentityError Nat) (p : Nat) (a : Acl) (d : Bool) (s : Sys)
    (h : ∃ en ∈ a, ∃ ee, r en.subject = Except.error ee) :
    (set_acl r p a d s).2 = s ∧ mutCalls (set_acl r p a d s).2 = mutCalls s ∧
      ∃ err, (set_acl r p a d s).1 = Except.error err := by
  cases hv : validate a d with
  | error e =>
    refine ⟨by simp [set_acl, hv], by simp [set_acl, hv], StoreError.Validation e, ?_⟩
    simp [set_acl, hv]
  | ok u =>
    cases u
    obtain ⟨err, herr⟩ := resolveAll_err r a h
    refine ⟨by simp [set_acl, hv, herr], by simp [set_acl, hv, herr],
      StoreError.Identity err, ?_⟩
    simp [set_acl, hv, herr]

/-- Witness for C2: a resolver failing on every subject leaves a concrete
system state untouched with zero native calls. -/
theorem set_acl_aborts_on_resolution_failure_witness :
    (set_acl failingResolver 0 sampleAcl false (sysWith [])).2 = sysWith [] ∧
      mutCalls (set_acl failingResolver 0 sampleAcl false (sysWith [])).2 =
        mutCalls (sysWith []) ∧
      ∃ err, (set_acl failingResolver 0 sampleAcl false (sysWith [])).1 = Except.error err :=
  set_acl_aborts_on_resolution_failure failingResolver 0 sampleAcl false (sysWith [])
    ⟨{ subject := Subject.Owner
       permissions := { read := true, write := true, execute := false }
       flags := { defaultScope := false, unknownBits := 5 } },
     by decide, IdentityError.NotFound, rfl⟩

/-- C5.  Two-phase commit of `set_acl` on the separate-calls platform: the
access-scope native call is always issued before the default-scope call;
when both succeed the state holds both raw ACLs, and when the access phase
succeeds and the default phase fails, the result is
`StoreError.PartialApply` carrying the completed `AccessApplied` phase, with
the access-scope effect left in place (no rollback) and no further native
calls (no recovery). -/
theorem set_acl_two_phase :
    (∀ (r : Subject → Except IdentityError Nat) (p : Nat) (a : Acl) (s : Sys)
        (rest : List OsOutcome),
        validate a true = Except.ok () → resolveAll r a = Except.ok () →
        hasDefaultEntry a = true →
        s.faults = OsOutcome.ok :: OsOutcome.ok :: rest →
        set_acl r p a true s =
          (Except.ok (),
           { faults := rest
             fs := { access := setKey p (encodeAccess a) s.fs.access
                     dflt := setKey p (encodeDefault a) s.fs.dflt }
             trace := s.trace ++ [CallKind.setAccess, CallKind.setDefault] }))
    ∧ (∀ (r : Subject → Except IdentityError Nat) (p : Nat) (a : Acl) (s : Sys)
        (f2 : OsOutcome) (rest : List OsOutcome),
        validate a true = Except.ok () → resolveAll r a = Except.ok () →
        hasDefaultEntry a = true →
        s.faults = OsOutcome.ok :: f2 :: rest →
        (f2 = OsOutcome.noent ∨ f2 = OsOutcome.eperm) →
        set_acl r p a true s =
          (Except.error (StoreError.PartialApply PhaseOutcome.AccessApplied),
           { faults := rest
             fs := { access := setKey p (encodeAccess a) s.fs.access
                     dflt := s.fs.dflt }
             trace := s.trace ++ [CallKind.setAccess, CallKind.setDefault] })) := by
  constructor
  · intro r p a s rest hv hr hd hf
    have he : encode a true = Except.ok (a.map entryToRaw) := by simp [encode, hv]
    rcases s with ⟨sf, sfs, str⟩
    rcases sfs with ⟨acc, dfl⟩
    simp only at hf
    subst hf
    simp [set_acl, hv, hr, he, hd, withRetry, nativeCall, encodeAccess, encodeDefault,
      List.append_assoc]
  · intro r p a s f2 rest hv hr hd hf hcase
    have he : encode a true = Except.ok (a.map entryToRaw) := by simp [encode, hv]
    rcases s with ⟨sf, sfs, str⟩
    rcases sfs with ⟨acc, dfl⟩
    simp only at hf
    subst hf
    rcases hcase with h2 | h2 <;> subst h2 <;>
      simp [set_acl, hv, hr, he, hd, withRetry, nativeCall, encodeAccess, encodeDefault,
        List.append_assoc]

/-- Witness for C5: on a concrete directory ACL with a default entry and a
script where the access call succeeds and the default call fails, the store
reports a partial apply without rolling back the access phase. -/
theorem set_acl_two_phase_witness :
    set_acl okResolver 0 sampleDirAcl true (sysWith [OsOutcome.ok, OsOutcome.eperm]) =
      (Except.error (StoreError.PartialApply PhaseOutcome.AccessApplied),
       { faults := []
         fs := { access := setKey 0 (encodeAccess sampleDirAcl) [], dflt := [] }
         trace := [CallKind.setAccess, CallKind.setDefault] }) :=
  set_acl_two_phase.2 okResolver 0 sampleDirAcl (sysWith [OsOutcome.ok, OsOutcome.eperm])
    OsOutcome.eperm [] rfl rfl rfl rfl (Or.inr rfl)

/-- C6 counterexample.  `get_acl` is a Store operation whose native read,
when interrupted, is reported immediately after a single native call — it
is not retried, contradicting the claim's "every Store operation" scope. -/
theorem get_acl_no_retry_counterexample :
    (get_acl 0 (sysWith [OsOutcome.interrupted])).1 = Except.error StoreError.Interrupted ∧
      (get_acl 0 (sysWith [OsOutcome.interrupted])).2.trace = [CallKind.readAcl] :=
  ⟨rfl, rfl⟩

/-- C6 as amended.  For the mutating native calls (all wrapped in
`withRetry`): an interrupted call is retried automatically exactly once
(two attempts total), succeeding if the retry succeeds and reporting
`Interrupted` if the retry is interrupted again; every other error category
is returned immediately after a single attempt with no effect applied.  The
native read of `get_acl` is never retried: an interrupted read is reported
immediately. -/
theorem interrupted_retry_policy :
    (∀ (k : CallKind) (eff : FsData → FsData) (s : Sys) (rest : List OsOutcome),
        s.faults = OsOutcome.interrupted :: rest →
        (withRetry k eff s).2.trace = s.trace ++ [k, k])
    ∧ (∀ (k : CallKind) (eff : FsData → FsData) (s : Sys) (rest : List OsOutcome),
        s.faults = OsOutcome.interrupted :: OsOutcome.ok :: rest →
        withRetry k eff s = (Except.ok (),
          { faults := rest, fs := eff s.fs, trace := s.trace ++ [k, k] }))
    ∧ (∀ (k : CallKind) (eff : FsData → FsData) (s : Sys) (rest : List OsOutcome),
        s.faults = OsOutcome.interrupted :: OsOutcome.interrupted :: rest →
        withRetry k eff s = (Except.error StoreError.Interrupted,
          { faults := rest, fs := s.fs, trace := s.trace ++ [k, k] }))
    ∧ (∀ (k : CallKind) (eff : FsData → FsData) (s : Sys) (rest : List OsOutcome),
        s.faults = OsOutcome.noent :: rest →
        withRetry k eff s = (Except.error StoreError.NotFound,
          { faults := rest, fs := s.fs, trace := s.trace ++ [k] }))
    ∧ (∀ (k : CallKind) (eff : FsData → FsData) (s : Sys) (rest : List OsOutcome),
        s.faults = OsOutcome.eperm :: rest →
        withRetry k eff s = (Except.error StoreError.PermissionDenied,
          { faults := rest, fs := s.fs, trace := s.trace ++ [k] }))
    ∧ (∀ (p : Nat) (s : Sys) (rest : List OsOutcome),
        s.faults = OsOutcome.interrupted :: rest →
        get_acl p s = (Except.error StoreError.Interrupted,
          { faults := rest, fs := s.fs, trace := s.trace ++ [CallKind.readAcl] })) := by
  refine ⟨?_, ?_, ?_, ?_, ?_, ?_⟩
  · intro k eff s rest hf
    rcases s with ⟨sf, sfs, str⟩
    simp only at hf
    subst hf
    cases rest with
    | nil => simp [withRetry, nativeCall, List.append_assoc]
    | cons f2 rest2 =>
      cases f2 <;> simp [withRetry, nativeCall, List.append_assoc]
  · intro k eff s rest hf
    rcases s with ⟨sf, sfs, str⟩
    simp only at hf
    subst hf
    simp [withRetry, nativeCall, List.append_assoc]
  · intro k eff s rest hf
    rcases s with ⟨sf, sfs, str⟩
    simp only at hf
    subst hf
    simp [withRetry, nativeCall, List.append_assoc]
  · intro k eff s rest hf
    rcases s with ⟨sf, sfs, str⟩
    simp only at hf
    subst hf
    simp [withRetry, nativeCall]
  · intro k eff s rest hf
    rcases s with ⟨sf, sfs, str⟩
    simp only at hf
    subst hf
    simp [withRetry, nativeCall]
  · intro p s rest hf
    rcases s with ⟨sf, sfs, str⟩
    simp only at hf
    subst hf
    simp [get_acl, nativeCall]

/-- Witness for the amended C6: one interrupted attempt followed by a
successful retry — exactly two native attempts, then success. -/
theorem interrupted_retry_policy_witness :
    withRetry CallKind.setAccess id (sysWith [OsOutcome.interrupted, OsOutcome.ok]) =
      (Except.ok (),
        { faults := [], fs := { access := [], dflt := [] }
          trace := [CallKind.setAccess, CallKind.setAccess] }) :=
  interrupted_retry_policy.2.1 CallKind.setAccess id
    (sysWith [OsOutcome.interrupted, OsOutcome.ok]) [] rfl

lemma filter_self_idem {α : Type} (f : α → Bool) (l : List α) :
    (l.filter f).filter f = l.filter f := by
  induction l with
  | nil => rfl
  | cons e t ih =>
    cases he : f e <;> simp [List.filter_cons, he, ih]

lemma eraseKey_idem (p : Nat) (l : List (Nat × List RawEntry)) :
    eraseKey p (eraseKey p l) = eraseKey p l :=
  filter_self_idem _ l

lemma lookupD_setKey_self (l : List (Nat × List RawEntry)) (p : Nat) (v : List RawEntry) :
    lookupD (setKey p v l) p = v := by
  induction l with
  | nil => simp [setKey, lookupD]
  | cons kv rest ih =>
    by_cases h : kv.1 = p
    · simp [setKey, h, lookupD]
    · simp [setKey, h, lookupD, ih]

lemma setKey_setKey_self (l : List (Nat × List RawEntry)) (p : Nat) (v : List RawEntry) :
    setKey p v (setKey p v l) = setKey p v l := by
  induction l with
  | nil => simp [setKey]
  | cons kv rest ih =>
    by_cases h : kv.1 = p
    · simp [setKey, h]
    · simp [setKey, h, ih]

lemma minimalOf_idem (l : List RawEntry) : minimalOf (minimalOf l) = minimalOf l :=
  filter_self_idem _ l

lemma get_acl_fst_congr (p : Nat) (f : List OsOutcome) (fs : FsData)
    (t1 t2 : List CallKind) :
    (get_acl p ⟨f, fs, t1⟩).1 = (get_acl p ⟨f, fs, t2⟩).1 := by
  cases f with
  | nil =>
    cases hd : decode (lookupD fs.access p ++ lookupD fs.dflt p) true <;>
      simp [get_acl, nativeCall, hd]
  | cons f0 rest =>
    cases f0 <;> simp [get_acl, nativeCall] <;>
      cases hd : decode (lookupD fs.access p ++ lookupD fs.dflt p) true <;>
        simp [hd]

/-- C7.  `remove_acl` is idempotent: with a fault-free native layer, two
successive calls both succeed, the second leaves the filesystem ACL data
exactly as the first did, and a subsequent `get_acl` returns the same
(minimal) canonical value after either call. -/
theorem remove_acl_idempotent (p : Nat) (s : Sys) (hf : s.faults = []) :
    (remove_acl p s).1 = Except.ok () ∧
      (remove_acl p (remove_acl p s).2).1 = Except.ok () ∧
      (remove_acl p (remove_acl p s).2).2.fs = (remove_acl p s).2.fs ∧
      (get_acl p (remove_acl p (remove_acl p s).2).2).1 =
        (get_acl p (remove_acl p s).2).1 := by
  rcases s with ⟨sf, sfs, str⟩
  rcases sfs with ⟨acc, dfl⟩
  simp only at hf
  subst hf
  have h1 : remove_acl p ⟨[], ⟨acc, dfl⟩, str⟩ =
      (Except.ok (),
        ⟨[], ⟨setKey p (minimalOf (lookupD acc p)) acc, eraseKey p dfl⟩,
          str ++ [CallKind.removeExtended]⟩) := by
    simp [remove_acl, withRetry, nativeCall]
  have h2 : remove_acl p
      ⟨[], ⟨setKey p (minimalOf (lookupD acc p)) acc, eraseKey p dfl⟩,
        str ++ [CallKind.removeExtended]⟩ =
      (Except.ok (),
        ⟨[], ⟨setKey p (minimalOf (lookupD acc p)) acc, eraseKey p dfl⟩,
          str ++ [CallKind.removeExtended] ++ [CallKind.removeExtended]⟩) := by
    simp [remove_acl, withRetry, nativeCall, lookupD_setKey_self, minimalOf_idem,
      setKey_setKey_self, eraseKey_idem]
  rw [h1]
  simp only
  rw [h2]
  exact ⟨trivial, rfl, rfl, get_acl_fst_congr p [] _ _ _⟩

/-- Witness for C7 on a concrete state whose path 0 carries extended access
entries and a default ACL. -/
theorem remove_acl_idempotent_witness :
    (remove_acl 0 sampleRawSys).1 = Except.ok () ∧
      (remove_acl 0 (remove_acl 0 sampleRawSys).2).1 = Except.ok () ∧
      (remove_acl 0 (remove_acl 0 sampleRawSys).2).2.fs = (remove_acl 0 sampleRawSys).2.fs ∧
      (get_acl 0 (remove_acl 0 (remove_acl 0 sampleRawSys).2).2).1 =
        (get_acl 0 (remove_acl 0 sampleRawSys).2).1 :=
  remove_acl_idempotent 0 sampleRawSys rfl

/-- C8.  On the GUID platform, a GUID classified into the well-known
"everyone" domain resolves to the symbolic `Subject.Other` for every
numeric translation service — in particular it neither consults numeric
translation nor fails when no numeric ID exists. -/
theorem wellknown_everyone_resolves_to_other
    (numTrans : GuidDomain → Nat → Except IdentityError Nat) (g : Guid)
    (h : g.domain = GuidDomain.wellKnown WellKnown.everyone) :
    to_subject_guid numTrans g = Except.ok Subject.Other := by
  rcases g with ⟨dom, v⟩
  simp only at h
  subst h
  rfl

/-- Witness for C8 with a numeric translation service that fails on every
input: the well-known everyone GUID still resolves to `Subject.Other`. -/
theorem wellknown_everyone_resolves_to_other_witness :
    to_subject_guid (fun _ _ => Except.error IdentityError.NotFound)
      { domain := GuidDomain.wellKnown WellKnown.everyone, value := 0 } =
      Except.ok Subject.Other :=
  wellknown_everyone_resolves_to_other (fun _ _ => Except.error IdentityError.NotFound)
    { domain := GuidDomain.wellKnown WellKnown.everyone, value := 0 } rfl

/-- C9.  The dispatch in src/wrapper.h is a total two-way branch: every
compilation target includes exactly one of the two platform extension
headers — membership.h exactly when __APPLE__ is defined, acl/libacl.h
exactly otherwise; no target includes zero or both. -/
theorem wrapper_dispatch_total (t : Target) :
    (wrapperExtHeaders t).length = 1 ∧
      (wrapperExtHeaders t = [ExtHeader.membership] ↔ t.apple = true) ∧
      (wrapperExtHeaders t = [ExtHeader.libacl] ↔ t.apple = false) := by
  rcases t with ⟨a, l⟩
  cases a <;> cases l <;> decide

/-- Witness for C9 at the Apple target. -/
theorem wrapper_dispatch_total_witness :
    (wrapperExtHeaders { apple := true, linux := false }).length = 1 :=
  (wrapper_dispatch_total { apple := true, linux := false }).1

/-- C10 counterexample.  On a target where neither __APPLE__ nor __linux__
is defined, src/wrapper.h includes acl/libacl.h (its #else branch) while
src/bindgen/wrapper.h includes no extension header, so the two mappings are
not equivalent on every target. -/
theorem wrapper_headers_differ_counterexample :
    wrapperExtHeaders { apple := false, linux := false } ≠
      bindgenExtHeaders { apple := false, linux := false } := by
  decide

/-- C10 as amended.  The two wrapper headers include the same extension
headers on every target where __APPLE__ or __linux__ is defined; on any
other target they differ: src/wrapper.h includes acl/libacl.h while
src/bindgen/wrapper.h includes neither extension header. -/
theorem wrapper_headers_agreement (t : Target) :
    (t.apple = true ∨ t.linux = true → wrapperExtHeaders t = bindgenExtHeaders t) ∧
      (t.apple = false → t.linux = false →
        wrapperExtHeaders t = [ExtHeader.libacl] ∧ bindgenExtHeaders t = []) := by
  rcases t with ⟨a, l⟩
  cases a <;> cases l <;> decide

/-- Witness for the amended C10 at the Linux target. -/
theorem wrapper_headers_agreement_witness :
    wrapperExtHeaders { apple := false, linux := true } =
      bindgenExtHeaders { apple := false, linux := true } :=
  (wrapper_headers_agreement { apple := false, linux := true }).1 (Or.inr rfl)

end Exacl
